import Mathlib

/-!
Verification of the Delta coin ledger service layer
(`apps/core/services_delta.py` together with the data model in
`apps/core/models_delta.py`).

The service layer is embedded shallowly: monetary amounts (Python
`Decimal`, exact decimal arithmetic) become `ℤ`; the database becomes an
explicit `LedgerState` record holding wallets, transactions, earning
rules, products, and purchases; each `@db_transaction.atomic` service
method becomes a function `LedgerState → Except DeltaError (LedgerState × _)`,
where an `Except.error` result corresponds to a raised `ValidationError`
(or `DoesNotExist`) and — matching the semantics of the atomic decorator —
commits nothing.  `runCall` commits the new state on success and keeps
the prior state on error.
-/

namespace DeltaLedger

/-- `DeltaWallet` (models_delta.py): balance, lifetime totals and the two
status flags.  The user key is kept outside, in the association list of
`LedgerState`. -/
structure DeltaWallet where
  balance : ℤ
  total_earned : ℤ
  total_spent : ℤ
  is_active : Bool
  is_frozen : Bool
deriving DecidableEq

/-- `DeltaTransaction` (models_delta.py), restricted to the fields the
service layer reads or writes.  `id` abstracts the UUID primary key as a
`Nat`; `related_user`, `reference_id` and `reversed_by` are the nullable
columns. -/
structure DeltaTransaction where
  id : Nat
  walletUser : Nat
  transaction_type : String
  amount : ℤ
  balance_before : ℤ
  balance_after : ℤ
  status : String
  related_user : Option Nat
  reference_id : Option Nat
  description : String
  is_reversed : Bool
  reversed_by : Option Nat
deriving DecidableEq

/-- `DeltaEarningRule` (models_delta.py).  The JSON `conditions` dict is
modelled as an association list from keys to numeric values — the only
shape the service layer ever inspects (`'min_accuracy' in conditions`,
numeric comparison). -/
structure DeltaEarningRule where
  name : String
  description : String
  amount : ℤ
  is_active : Bool
  conditions : List (String × ℤ)
deriving DecidableEq

/-- `DeltaProduct` (models_delta.py): `quantity_available` is a nullable
integer column. -/
structure DeltaProduct where
  name : String
  price : ℤ
  is_available : Bool
  is_limited : Bool
  quantity_available : Option Int
deriving DecidableEq

/-- `DeltaPurchase` (models_delta.py): links a user, a product and the
deduction transaction that paid for it. -/
structure DeltaPurchase where
  user : Nat
  productId : Nat
  transactionId : Nat
  quantity : Int
  total_price : ℤ
deriving DecidableEq

/-- The database state the service layer reads and writes: wallets keyed
by user id, products keyed by product id, and the append-only transaction
and purchase tables.  `nextTxId` abstracts fresh-UUID generation for
transactions. -/
structure LedgerState where
  wallets : List (Nat × DeltaWallet)
  transactions : List DeltaTransaction
  rules : List DeltaEarningRule
  products : List (Nat × DeltaProduct)
  purchases : List DeltaPurchase
  nextTxId : Nat
deriving DecidableEq

/-- Raised exceptions: Django's `ValidationError msg`, and the ORM's
`DoesNotExist` for a `get` on a missing row. -/
inductive DeltaError where
  | validation (msg : String)
  | doesNotExist
deriving DecidableEq

/-- First-match lookup in an association list (the `objects.get(pk=…)`
of the embedding). -/
def lookupKey {κ α : Type} [DecidableEq κ] : List (κ × α) → κ → Option α
  | [], _ => none
  | (k', v) :: rest, k => if k' = k then some v else lookupKey rest k

/-- Overwrite the value stored under a key (the row `save()` of the
embedding); keys not present are left untouched. -/
def updKey {κ α : Type} [DecidableEq κ] (l : List (κ × α)) (k : κ) (v : α) :
    List (κ × α) :=
  l.map (fun p => if p.1 = k then (k, v) else p)

/-- `DeltaWallet.objects.get(user=user)` of the embedding. -/
def getWallet (s : LedgerState) (u : Nat) : Option DeltaWallet :=
  lookupKey s.wallets u

/-- Wallet row defaults used by `get_or_create_wallet`: `balance` and the
lifetime totals start at `0.00`, `is_active` is true, `is_frozen` false. -/
def defaultWallet : DeltaWallet :=
  { balance := 0, total_earned := 0, total_spent := 0,
    is_active := true, is_frozen := false }

/-- `DeltaService.get_or_create_wallet` (services_delta.py): return the
existing wallet, or create one from the defaults. -/
def get_or_create_wallet (s : LedgerState) (user : Nat) :
    LedgerState × DeltaWallet :=
  match getWallet s user with
  | some w => (s, w)
  | none => ({ s with wallets := s.wallets ++ [(user, defaultWallet)] },
             defaultWallet)

/-- `DeltaService.add_delta` (services_delta.py lines 43–112): reject a
non-positive amount, an inactive or a frozen wallet; otherwise increment
`balance` and `total_earned` and append a completed audit transaction
recording the balance before and after. -/
def add_delta (s : LedgerState) (user : Nat) (amount : ℤ)
    (transaction_type : String) (description : String)
    (reference_id : Option Nat) :
    Except DeltaError (LedgerState × DeltaTransaction) :=
  if amount ≤ 0 then .error (.validation "Amount must be positive") else
  match getWallet s user with
  | none => .error .doesNotExist
  | some wallet =>
    if wallet.is_active = false then .error (.validation "Wallet is not active") else
    if wallet.is_frozen = true then .error (.validation "Wallet is frozen") else
    let balance_before := wallet.balance
    let wallet' : DeltaWallet :=
      { wallet with balance := wallet.balance + amount,
                    total_earned := wallet.total_earned + amount }
    let tx : DeltaTransaction :=
      { id := s.nextTxId, walletUser := user,
        transaction_type := transaction_type, amount := amount,
        balance_before := balance_before, balance_after := wallet'.balance,
        status := "completed", related_user := none,
        reference_id := reference_id, description := description,
        is_reversed := false, reversed_by := none }
    .ok ({ s with wallets := updKey s.wallets user wallet',
                  transactions := s.transactions ++ [tx],
                  nextTxId := s.nextTxId + 1 }, tx)

/-- `DeltaService.deduct_delta` (services_delta.py lines 114–187): the
same guards as `add_delta` plus the insufficient-balance check; on
success decrement `balance`, increment `total_spent` and append the
audit transaction. -/
def deduct_delta (s : LedgerState) (user : Nat) (amount : ℤ)
    (transaction_type : String) (description : String)
    (reference_id : Option Nat) :
    Except DeltaError (LedgerState × DeltaTransaction) :=
  if amount ≤ 0 then .error (.validation "Amount must be positive") else
  match getWallet s user with
  | none => .error .doesNotExist
  | some wallet =>
    if wallet.is_active = false then .error (.validation "Wallet is not active") else
    if wallet.is_frozen = true then .error (.validation "Wallet is frozen") else
    if wallet.balance < amount then .error (.validation "Insufficient balance") else
    let balance_before := wallet.balance
    let wallet' : DeltaWallet :=
      { wallet with balance := wallet.balance - amount,
                    total_spent := wallet.total_spent + amount }
    let tx : DeltaTransaction :=
      { id := s.nextTxId, walletUser := user,
        transaction_type := transaction_type, amount := amount,
        balance_before := balance_before, balance_after := wallet'.balance,
        status := "completed", related_user := none,
        reference_id := reference_id, description := description,
        is_reversed := false, reversed_by := none }
    .ok ({ s with wallets := updKey s.wallets user wallet',
                  transactions := s.transactions ++ [tx],
                  nextTxId := s.nextTxId + 1 }, tx)

/-- Message carried by an error, mirroring Python's `str(e)` in the
`except` clause of `transfer_delta`. -/
def errMsg : DeltaError → String
  | .validation m => m
  | .doesNotExist => "DoesNotExist"

/-- `DeltaService.transfer_delta` (services_delta.py lines 189–243):
reject self-transfer; deduct from the sender, add to the recipient, then
set `related_user` on both stored records; a failure of the add step is
wrapped as "Transfer failed: …" and — through the atomic decorator —
rolls back the already-performed deduction. -/
def transfer_delta (s : LedgerState) (from_user to_user : Nat) (amount : ℤ)
    (description : String) :
    Except DeltaError (LedgerState × DeltaTransaction × DeltaTransaction) :=
  if from_user = to_user then
    .error (.validation "Cannot transfer to yourself")
  else
    match deduct_delta s from_user amount "transfer"
        (description ++ " (sent)") none with
    | .error e => .error e
    | .ok (s1, sender_tx) =>
      match add_delta s1 to_user amount "transfer"
          (description ++ " (received)") none with
      | .error e => .error (.validation ("Transfer failed: " ++ errMsg e))
      | .ok (s2, recipient_tx) =>
        let sender_tx' := { sender_tx with related_user := some to_user }
        let recipient_tx' := { recipient_tx with related_user := some from_user }
        let s3 := { s2 with transactions := s2.transactions.map (fun t =>
          if t.id = sender_tx.id then sender_tx'
          else if t.id = recipient_tx.id then recipient_tx' else t) }
        .ok (s3, sender_tx', recipient_tx')

/-- The transaction types `reverse_transaction` undoes by deducting
("These added Delta, so reverse by deducting"). -/
def creditTypes : List String := ["earn", "bonus", "admin_add", "transfer"]

/-- Fetch a transaction row by id. -/
def findTx (s : LedgerState) (i : Nat) : Option DeltaTransaction :=
  s.transactions.find? (fun t => t.id = i)

/-- `DeltaService.reverse_transaction` (services_delta.py lines 245–301):
reject an already-reversed or non-completed transaction; undo a
credit-typed transaction by deducting its amount and any other by adding
it; then flag the original record as reversed, pointing at the reversal
transaction. -/
def reverse_transaction (s : LedgerState) (txId : Nat) (reason : String) :
    Except DeltaError (LedgerState × DeltaTransaction) :=
  match findTx s txId with
  | none => .error .doesNotExist
  | some transaction =>
    if transaction.is_reversed = true then
      .error (.validation "Transaction already reversed")
    else if transaction.status ≠ "completed" then
      .error (.validation "Can only reverse completed transactions")
    else
      let descr := "Reversal: " ++ transaction.description ++
        ". Reason: " ++ reason
      let res :=
        if transaction.transaction_type ∈ creditTypes then
          deduct_delta s transaction.walletUser transaction.amount
            "reversal" descr (some transaction.id)
        else
          add_delta s transaction.walletUser transaction.amount
            "reversal" descr (some transaction.id)
      match res with
      | .error e => .error e
      | .ok (s1, reversal_tx) =>
        let s2 := { s1 with transactions := s1.transactions.map (fun t =>
          if t.id = txId then
            { t with is_reversed := true, reversed_by := some reversal_tx.id }
          else t) }
        .ok (s2, reversal_tx)

/-- The condition gate of `award_for_activity`: with a non-empty
`conditions` dict carrying a `min_accuracy` key, a supplied accuracy
(defaulting to 0) below the threshold blocks the award. -/
def minAccuracyBlocks (conditions : List (String × ℤ)) (accuracy : Option ℤ) :
    Bool :=
  if conditions.isEmpty then false
  else
    match lookupKey conditions "min_accuracy" with
    | none => false
    | some m => decide (accuracy.getD 0 < m)

/-- `DeltaEarningRule.objects.get(name=…, is_active=True)` of the
embedding: the first active rule with the given name, if any. -/
def findRule (s : LedgerState) (name : String) : Option DeltaEarningRule :=
  s.rules.find? (fun r => r.name = name && r.is_active)

/-- `DeltaService.award_for_activity` (services_delta.py lines 303–342):
no rule (or no active rule) or a failed `min_accuracy` condition yields
`None` with no state change; otherwise award `rule.amount` through
`add_delta` with type `'earn'` and the rule's description. -/
def award_for_activity (s : LedgerState) (user : Nat) (activity_name : String)
    (accuracy : Option ℤ) (reference_id : Option Nat) :
    Except DeltaError (LedgerState × Option DeltaTransaction) :=
  match findRule s activity_name with
  | none => .ok (s, none)
  | some rule =>
    if minAccuracyBlocks rule.conditions accuracy then .ok (s, none)
    else
      (add_delta s user rule.amount "earn" rule.description
        reference_id).map (fun p => (p.1, some p.2))

/-- `DeltaService.purchase_product` (services_delta.py lines 344–410):
reject an unavailable product, and a limited product with a null or zero
or insufficient `quantity_available`; otherwise deduct
`price * quantity`, record the purchase, and for a limited product
decrement the stock, flipping `is_available` off at zero or below. -/
def purchase_product (s : LedgerState) (user : Nat) (product_id : Nat)
    (quantity : Int) :
    Except DeltaError (LedgerState × DeltaPurchase) :=
  match lookupKey s.products product_id with
  | none => .error .doesNotExist
  | some product =>
    if product.is_available = false then
      .error (.validation "Product is not available")
    else if product.is_limited &&
        (match product.quantity_available with
         | none => true
         | some q => q = 0 || q < quantity) then
      .error (.validation "Insufficient product quantity available")
    else
      let total_price := product.price * quantity
      match deduct_delta s user total_price "spend"
          ("Purchased " ++ product.name) (some product_id) with
      | .error e => .error e
      | .ok (s1, tx) =>
        let purchase : DeltaPurchase :=
          { user := user, productId := product_id, transactionId := tx.id,
            quantity := quantity, total_price := total_price }
        let s2 := { s1 with purchases := s1.purchases ++ [purchase] }
        let s3 :=
          if product.is_limited then
            let q' := product.quantity_available.getD 0 - quantity
            let product' :=
              { product with quantity_available := some q',
                             is_available :=
                               if q' ≤ 0 then false else product.is_available }
            { s2 with products := updKey s2.products product_id product' }
          else s2
        .ok (s3, purchase)

/-- One call into the service layer, with the arguments the claims
exercise. -/
inductive ServiceCall where
  | add (user : Nat) (amount : ℤ) (transaction_type : String)
      (description : String) (reference_id : Option Nat)
  | deduct (user : Nat) (amount : ℤ) (transaction_type : String)
      (description : String) (reference_id : Option Nat)
  | transfer (from_user to_user : Nat) (amount : ℤ) (description : String)
  | reverse (txId : Nat) (reason : String)
  | award (user : Nat) (activity_name : String) (accuracy : Option ℤ)
      (reference_id : Option Nat)
  | purchase (user : Nat) (product_id : Nat) (quantity : Int)
deriving DecidableEq

/-- The state a service call would commit, or the error it raises. -/
def callResult (s : LedgerState) : ServiceCall → Except DeltaError LedgerState
  | .add u a ty d r => (add_delta s u a ty d r).map Prod.fst
  | .deduct u a ty d r => (deduct_delta s u a ty d r).map Prod.fst
  | .transfer fu tu a d => (transfer_delta s fu tu a d).map Prod.fst
  | .reverse i reason => (reverse_transaction s i reason).map Prod.fst
  | .award u n acc r => (award_for_activity s u n acc r).map Prod.fst
  | .purchase u p q => (purchase_product s u p q).map Prod.fst

/-- Commit-or-rollback semantics of `@db_transaction.atomic`: a
successful call commits its state, a raised error leaves the previously
committed state in place. -/
def runCall (s : LedgerState) (c : ServiceCall) : LedgerState :=
  match callResult s c with
  | .ok s' => s'
  | .error _ => s

/-- The three balance-mutating entry points named by the spec's
balance-nonnegativity property. -/
def isBalanceCall : ServiceCall → Bool
  | .add _ _ _ _ _ => true
  | .deduct _ _ _ _ _ => true
  | .transfer _ _ _ _ => true
  | _ => false

/-- Calls that go straight to `add_delta` or `deduct_delta`. -/
def isAddOrDeduct : ServiceCall → Bool
  | .add _ _ _ _ _ => true
  | .deduct _ _ _ _ _ => true
  | _ => false

/-- Every wallet balance in the state is non-negative. -/
def walletsNonneg (s : LedgerState) : Prop :=
  ∀ p ∈ s.wallets, 0 ≤ p.2.balance

instance (s : LedgerState) : Decidable (walletsNonneg s) :=
  inferInstanceAs (Decidable (∀ p ∈ s.wallets, 0 ≤ p.2.balance))

/-- A wallet's running balance agrees with its lifetime totals. -/
def walletConsistent (w : DeltaWallet) : Prop :=
  w.balance = w.total_earned - w.total_spent

instance (w : DeltaWallet) : Decidable (walletConsistent w) :=
  inferInstanceAs (Decidable (w.balance = _))

/-! ### Concrete example states used by witnesses and counterexamples -/

/-- A wallet with the given balance and matching lifetime totals, active
and unfrozen. -/
def mkWallet (b : ℤ) : DeltaWallet :=
  { balance := b, total_earned := b, total_spent := 0,
    is_active := true, is_frozen := false }

/-- A one-wallet state: user 1 holds balance 100.00 (the worked example
of the spec). -/
def c3State : LedgerState :=
  { wallets := [(1, mkWallet 100)], transactions := [], rules := [],
    products := [], purchases := [], nextTxId := 0 }

/-- The state after `deduct(60, 'spend')` on `c3State`. -/
def c3State40 : LedgerState :=
  runCall c3State (ServiceCall.deduct 1 60 "spend" "" none)

/-- Two wallets (users 1 and 2) for sequence and transfer examples. -/
def c2State : LedgerState :=
  { wallets := [(1, mkWallet 10), (2, mkWallet 0)], transactions := [],
    rules := [], products := [], purchases := [], nextTxId := 0 }

/-- A mixed call sequence: an earn, a failing over-deduct, a transfer and
another failing deduct. -/
def c2Ops : List ServiceCall :=
  [ServiceCall.add 1 5 "earn" "practice" none,
   ServiceCall.deduct 1 100 "spend" "too much" none,
   ServiceCall.transfer 1 2 3 "gift",
   ServiceCall.deduct 2 100 "spend" "too much" none]

/-- The immutable core of a transaction record: every field except the
reversal flags (`is_reversed`, `reversed_by`) and the transfer
cross-link (`related_user`). -/
def coreEq (t t' : DeltaTransaction) : Prop :=
  t'.id = t.id ∧ t'.walletUser = t.walletUser ∧
  t'.transaction_type = t.transaction_type ∧ t'.amount = t.amount ∧
  t'.balance_before = t.balance_before ∧ t'.balance_after = t.balance_after ∧
  t'.status = t.status ∧ t'.reference_id = t.reference_id ∧
  t'.description = t.description

/-- Every transaction record of `s` survives into `s'` with its core
fields unchanged. -/
def txPreserved (s s' : LedgerState) : Prop :=
  ∀ t ∈ s.transactions, ∃ t' ∈ s'.transactions, coreEq t t'

/-- Every stored transaction id is below the id counter — the embedding
of UUID uniqueness; it holds in every state reachable from an empty
ledger. -/
def txIdsFresh (s : LedgerState) : Prop :=
  ∀ t ∈ s.transactions, t.id < s.nextTxId

instance (s : LedgerState) : Decidable (txIdsFresh s) :=
  inferInstanceAs (Decidable (∀ t ∈ s.transactions, t.id < s.nextTxId))

/-- Payload of a successful call, with a fallback for the error case. -/
def okOr {ε α : Type} (d : α) : Except ε α → α
  | .ok a => a
  | .error _ => d

/-- Placeholder transaction, used only as an `okOr` fallback. -/
def dummyTx : DeltaTransaction :=
  { id := 0, walletUser := 0, transaction_type := "", amount := 0,
    balance_before := 0, balance_after := 0, status := "",
    related_user := none, reference_id := none, description := "",
    is_reversed := false, reversed_by := none }

/-- An add and a deduct on user 7, whose wallet is created lazily by
`get_or_create_wallet`. -/
def c9Ops : List ServiceCall :=
  [ServiceCall.add 7 5 "earn" "seed" none,
   ServiceCall.deduct 7 2 "spend" "shop" none]

/-- Result of a successful `add_delta` on the 100-balance wallet. -/
def c4AddRes : LedgerState × DeltaTransaction :=
  okOr (c3State, dummyTx) (add_delta c3State 1 5 "earn" "practice award" none)

/-- Result of a successful `deduct_delta` on the 100-balance wallet. -/
def c4DeductRes : LedgerState × DeltaTransaction :=
  okOr (c3State, dummyTx) (deduct_delta c3State 1 5 "spend" "store" none)

/-- Result of a successful transfer of 4 from user 1 to user 2. -/
def c5Res : LedgerState × DeltaTransaction × DeltaTransaction :=
  okOr (c2State, dummyTx, dummyTx) (transfer_delta c2State 1 2 4 "gift")

/-- Sender with funds, recipient frozen: the transfer's deduct step
succeeds and its add step fails, exercising the rollback. -/
def c6State : LedgerState :=
  { wallets := [(1, mkWallet 100),
                (2, { balance := 0, total_earned := 0, total_spent := 0,
                      is_active := true, is_frozen := true })],
    transactions := [], rules := [], products := [], purchases := [],
    nextTxId := 0 }

/-- An active earning rule paying 5 with a minimum-accuracy condition. -/
def c7Rule : DeltaEarningRule :=
  { name := "practice", description := "Completed practice", amount := 5,
    is_active := true, conditions := [("min_accuracy", 80)] }

/-- A wallet plus the `c7Rule` earning rule. -/
def c7State : LedgerState :=
  { wallets := [(1, mkWallet 0)], transactions := [], rules := [c7Rule],
    products := [], purchases := [], nextTxId := 0 }

/-- A limited product: price 3, stock 2. -/
def c8Product : DeltaProduct :=
  { name := "badge", price := 3, is_available := true, is_limited := true,
    quantity_available := some 2 }

/-- A funded wallet, the limited `c8Product` (id 10) and an unavailable
product (id 11). -/
def c8State : LedgerState :=
  { wallets := [(1, mkWallet 100)], transactions := [], rules := [],
    products := [(10, c8Product),
                 (11, { name := "hat", price := 4, is_available := false,
                        is_limited := false, quantity_available := none })],
    purchases := [], nextTxId := 0 }

/-- Result of successfully purchasing 2 of the limited `c8Product`. -/
def c8Res : LedgerState × DeltaPurchase :=
  okOr (c8State, { user := 0, productId := 0, transactionId := 0,
                   quantity := 0, total_price := 0 })
    (purchase_product c8State 1 10 2)

/-- A wallet at balance 70 whose history holds a sender-side transfer of
30 (balance 100 → 70), completed and not reversed. -/
def c1State : LedgerState :=
  { wallets := [(1, { balance := 70, total_earned := 100, total_spent := 30,
                      is_active := true, is_frozen := false })],
    transactions := [{ id := 0, walletUser := 1,
                       transaction_type := "transfer", amount := 30,
                       balance_before := 100, balance_after := 70,
                       status := "completed", related_user := some 2,
                       reference_id := none,
                       description := "Transfer (sent)",
                       is_reversed := false, reversed_by := none }],
    rules := [], products := [], purchases := [], nextTxId := 1 }

/-- The earn transaction recorded in `c1EarnState` (balance 30 → 50). -/
def c1EarnTx : DeltaTransaction :=
  { id := 0, walletUser := 1, transaction_type := "earn", amount := 20,
    balance_before := 30, balance_after := 50, status := "completed",
    related_user := none, reference_id := none, description := "practice",
    is_reversed := false, reversed_by := none }

/-- A wallet at balance 50 whose history holds the earn `c1EarnTx`. -/
def c1EarnState : LedgerState :=
  { wallets := [(1, { balance := 50, total_earned := 50, total_spent := 0,
                      is_active := true, is_frozen := false })],
    transactions := [c1EarnTx], rules := [], products := [],
    purchases := [], nextTxId := 1 }

/-! ### Association-list lemmas -/

theorem lookupKey_mem {κ α : Type} [DecidableEq κ] {l : List (κ × α)} {k : κ}
    {v : α} (h : lookupKey l k = some v) : (k, v) ∈ l := by
  induction l with
  | nil => simp [lookupKey] at h
  | cons p rest ih =>
    obtain ⟨a, b⟩ := p
    by_cases hak : a = k
    · subst hak
      simp [lookupKey] at h
      simp [h]
    · simp [lookupKey, hak] at h
      exact List.mem_cons_of_mem _ (ih h)

theorem mem_updKey {κ α : Type} [DecidableEq κ] {l : List (κ × α)} {k : κ}
    {v : α} {p : κ × α} (h : p ∈ updKey l k v) : p ∈ l ∨ p = (k, v) := by
  unfold updKey at h
  rcases List.mem_map.mp h with ⟨q, hq, hfq⟩
  by_cases hqk : q.1 = k
  · right; rw [if_pos hqk] at hfq; exact hfq.symm
  · left; rw [if_neg hqk] at hfq; exact hfq ▸ hq

theorem updKey_cons {κ α : Type} [DecidableEq κ] (p : κ × α)
    (rest : List (κ × α)) (k : κ) (v : α) :
    updKey (p :: rest) k v =
      (if p.1 = k then (k, v) else p) :: updKey rest k v := rfl

theorem lookupKey_cons {κ α : Type} [DecidableEq κ] (a : κ) (b : α)
    (rest : List (κ × α)) (k : κ) :
    lookupKey ((a, b) :: rest) k = if a = k then some b else lookupKey rest k :=
  rfl

theorem lookupKey_updKey_ne {κ α : Type} [DecidableEq κ] (l : List (κ × α))
    {k k' : κ} (v : α) (h : k' ≠ k) :
    lookupKey (updKey l k v) k' = lookupKey l k' := by
  induction l with
  | nil => rfl
  | cons p rest ih =>
    obtain ⟨a, b⟩ := p
    rw [updKey_cons]
    by_cases hak : a = k
    · rw [if_pos hak]
      subst hak
      rw [lookupKey_cons, lookupKey_cons, if_neg (Ne.symm h), if_neg (Ne.symm h),
        ih]
    · rw [if_neg hak, lookupKey_cons, lookupKey_cons]
      by_cases hak' : a = k'
      · rw [if_pos hak', if_pos hak']
      · rw [if_neg hak', if_neg hak', ih]

theorem lookupKey_updKey_self {κ α : Type} [DecidableEq κ] {l : List (κ × α)}
    {k : κ} {w : α} (v : α) (h : lookupKey l k = some w) :
    lookupKey (updKey l k v) k = some v := by
  induction l with
  | nil => simp [lookupKey] at h
  | cons p rest ih =>
    obtain ⟨a, b⟩ := p
    rw [updKey_cons]
    by_cases hak : a = k
    · rw [if_pos hak, lookupKey_cons, if_pos rfl]
    · rw [if_neg hak, lookupKey_cons, if_neg hak]
      rw [lookupKey_cons, if_neg hak] at h
      exact ih h

theorem getWallet_mem {s : LedgerState} {u : Nat} {w : DeltaWallet}
    (h : getWallet s u = some w) : (u, w) ∈ s.wallets :=
  lookupKey_mem h

/-! ### Characterizations of `add_delta` and `deduct_delta` -/

theorem bool_eq_true_of_not_false {b : Bool} (h : ¬b = false) : b = true := by
  cases b
  · exact absurd rfl h
  · rfl

theorem bool_eq_false_of_not_true {b : Bool} (h : ¬b = true) : b = false := by
  cases b
  · rfl
  · exact absurd rfl h

theorem add_delta_eq_ok (s : LedgerState) (u : Nat) (a : ℤ) (ty d : String)
    (rid : Option Nat) (w : DeltaWallet) (hw : getWallet s u = some w)
    (hpos : 0 < a) (hact : w.is_active = true) (hfro : w.is_frozen = false) :
    add_delta s u a ty d rid = .ok
      ({ s with
          wallets := updKey s.wallets u
            { w with balance := w.balance + a,
                     total_earned := w.total_earned + a },
          transactions := s.transactions ++
            [{ id := s.nextTxId, walletUser := u, transaction_type := ty,
               amount := a, balance_before := w.balance,
               balance_after := w.balance + a, status := "completed",
               related_user := none, reference_id := rid, description := d,
               is_reversed := false, reversed_by := none }],
          nextTxId := s.nextTxId + 1 },
       { id := s.nextTxId, walletUser := u, transaction_type := ty,
         amount := a, balance_before := w.balance,
         balance_after := w.balance + a, status := "completed",
         related_user := none, reference_id := rid, description := d,
         is_reversed := false, reversed_by := none }) := by
  simp [add_delta, hw, not_le.mpr hpos, hact, hfro]

theorem add_delta_ok_inv {s : LedgerState} {u : Nat} {a : ℤ} {ty d : String}
    {rid : Option Nat} {r : LedgerState × DeltaTransaction}
    (h : add_delta s u a ty d rid = .ok r) :
    ∃ w, getWallet s u = some w ∧ 0 < a ∧ w.is_active = true ∧
      w.is_frozen = false ∧
      r.2 = { id := s.nextTxId, walletUser := u, transaction_type := ty,
              amount := a, balance_before := w.balance,
              balance_after := w.balance + a, status := "completed",
              related_user := none, reference_id := rid, description := d,
              is_reversed := false, reversed_by := none } ∧
      r.1 = { s with
              wallets := updKey s.wallets u
                { w with balance := w.balance + a,
                         total_earned := w.total_earned + a },
              transactions := s.transactions ++ [r.2],
              nextTxId := s.nextTxId + 1 } := by
  unfold add_delta at h
  split at h
  next hle => exact absurd h (by simp)
  next hle =>
    split at h
    next hw => exact absurd h (by simp)
    next w hw =>
      split at h
      next hact => exact absurd h (by simp)
      next hact =>
        split at h
        next hfro => exact absurd h (by simp)
        next hfro =>
          simp only [Except.ok.injEq] at h
          refine ⟨w, hw, not_le.mp hle, bool_eq_true_of_not_false hact,
            bool_eq_false_of_not_true hfro, ?_, ?_⟩
          · rw [← h]
          · rw [← h]

theorem deduct_delta_eq_ok (s : LedgerState) (u : Nat) (a : ℤ) (ty d : String)
    (rid : Option Nat) (w : DeltaWallet) (hw : getWallet s u = some w)
    (hpos : 0 < a) (hact : w.is_active = true) (hfro : w.is_frozen = false)
    (hbal : a ≤ w.balance) :
    deduct_delta s u a ty d rid = .ok
      ({ s with
          wallets := updKey s.wallets u
            { w with balance := w.balance - a,
                     total_spent := w.total_spent + a },
          transactions := s.transactions ++
            [{ id := s.nextTxId, walletUser := u, transaction_type := ty,
               amount := a, balance_before := w.balance,
               balance_after := w.balance - a, status := "completed",
               related_user := none, reference_id := rid, description := d,
               is_reversed := false, reversed_by := none }],
          nextTxId := s.nextTxId + 1 },
       { id := s.nextTxId, walletUser := u, transaction_type := ty,
         amount := a, balance_before := w.balance,
         balance_after := w.balance - a, status := "completed",
         related_user := none, reference_id := rid, description := d,
         is_reversed := false, reversed_by := none }) := by
  simp [deduct_delta, hw, not_le.mpr hpos, hact, hfro, not_lt.mpr hbal]

theorem deduct_delta_insufficient (s : LedgerState) (u : Nat) (a : ℤ)
    (ty d : String) (rid : Option Nat) (w : DeltaWallet)
    (hw : getWallet s u = some w) (hpos : 0 < a) (hact : w.is_active = true)
    (hfro : w.is_frozen = false) (hins : w.balance < a) :
    deduct_delta s u a ty d rid =
      .error (.validation "Insufficient balance") := by
  simp [deduct_delta, hw, not_le.mpr hpos, hact, hfro, hins]

theorem deduct_delta_ok_inv {s : LedgerState} {u : Nat} {a : ℤ} {ty d : String}
    {rid : Option Nat} {r : LedgerState × DeltaTransaction}
    (h : deduct_delta s u a ty d rid = .ok r) :
    ∃ w, getWallet s u = some w ∧ 0 < a ∧ w.is_active = true ∧
      w.is_frozen = false ∧ a ≤ w.balance ∧
      r.2 = { id := s.nextTxId, walletUser := u, transaction_type := ty,
              amount := a, balance_before := w.balance,
              balance_after := w.balance - a, status := "completed",
              related_user := none, reference_id := rid, description := d,
              is_reversed := false, reversed_by := none } ∧
      r.1 = { s with
              wallets := updKey s.wallets u
                { w with balance := w.balance - a,
                         total_spent := w.total_spent + a },
              transactions := s.transactions ++ [r.2],
              nextTxId := s.nextTxId + 1 } := by
  unfold deduct_delta at h
  split at h
  next hle => exact absurd h (by simp)
  next hle =>
    split at h
    next hw => exact absurd h (by simp)
    next w hw =>
      split at h
      next hact => exact absurd h (by simp)
      next hact =>
        split at h
        next hfro => exact absurd h (by simp)
        next hfro =>
          split at h
          next hins => exact absurd h (by simp)
          next hins =>
            simp only [Except.ok.injEq] at h
            refine ⟨w, hw, not_le.mp hle, bool_eq_true_of_not_false hact,
              bool_eq_false_of_not_true hfro, not_lt.mp hins, ?_, ?_⟩
            · rw [← h]
            · rw [← h]

/-! ### Commit-or-rollback helpers -/

theorem runCall_eq_of_ok {s : LedgerState} {c : ServiceCall} {s' : LedgerState}
    (h : callResult s c = .ok s') : runCall s c = s' := by
  unfold runCall
  rw [h]

theorem runCall_eq_of_error {s : LedgerState} {c : ServiceCall} {e : DeltaError}
    (h : callResult s c = .error e) : runCall s c = s := by
  unfold runCall
  rw [h]

/-! ### Claim C3 -/

/-- C3: `deduct_delta` on an active, unfrozen wallet with a positive
amount raises the insufficient-balance validation error exactly when the
balance is strictly below the amount, and otherwise decreases the balance
by exactly the amount, recording `balance_before` and `balance_after`
around the decrement (so on balance 100.00 a deduct of 60 yields 40.00
with a (100, 40) transaction, and a second deduct of 60 then fails,
leaving 40.00 — see the witness). -/
theorem deduct_insufficient_or_exact_decrement (s : LedgerState) (u : Nat)
    (a : ℤ) (ty d : String) (rid : Option Nat) (w : DeltaWallet)
    (hw : getWallet s u = some w) (hact : w.is_active = true)
    (hfro : w.is_frozen = false) (hpos : 0 < a) :
    (w.balance < a →
      deduct_delta s u a ty d rid =
        .error (.validation "Insufficient balance")) ∧
    (a ≤ w.balance →
      ∃ s' tx, deduct_delta s u a ty d rid = .ok (s', tx) ∧
        (getWallet s' u).map DeltaWallet.balance = some (w.balance - a) ∧
        tx.balance_before = w.balance ∧ tx.balance_after = w.balance - a ∧
        tx.amount = a) := by
  constructor
  · intro hins
    exact deduct_delta_insufficient s u a ty d rid w hw hpos hact hfro hins
  · intro hbal
    refine ⟨_, _, deduct_delta_eq_ok s u a ty d rid w hw hpos hact hfro hbal,
      ?_, rfl, rfl, rfl⟩
    have hg := lookupKey_updKey_self
      (l := s.wallets) (k := u)
      { w with balance := w.balance - a, total_spent := w.total_spent + a } hw
    show (lookupKey (updKey s.wallets u _) u).map DeltaWallet.balance = _
    rw [hg]
    rfl

/-- Witness for C3: the spec's worked example — balance 100.00, deduct 60
succeeds leaving 40.00 with transaction (100, 40); deducting 60 again
fails with the insufficient-balance error and the balance stays 40.00. -/
theorem deduct_insufficient_or_exact_decrement_witness :
    (∃ s' tx, deduct_delta c3State 1 60 "spend" "" none = .ok (s', tx) ∧
      (getWallet s' 1).map DeltaWallet.balance = some ((100 : ℤ) - 60) ∧
      tx.balance_before = 100 ∧ tx.balance_after = (100 : ℤ) - 60 ∧
      tx.amount = 60) ∧
    deduct_delta c3State40 1 60 "spend" "" none =
      .error (.validation "Insufficient balance") ∧
    (getWallet c3State40 1).map DeltaWallet.balance = some (40 : ℤ) := by
  refine ⟨?_, ?_, by decide⟩
  · exact (deduct_insufficient_or_exact_decrement c3State 1 60 "spend" "" none
      (mkWallet 100) rfl rfl rfl (by decide)).2 (by decide)
  · exact (deduct_insufficient_or_exact_decrement c3State40 1 60 "spend" ""
      none { balance := 40, total_earned := 100, total_spent := 60,
             is_active := true, is_frozen := false }
      (by decide) rfl rfl (by decide)).1 (by decide)

/-! ### Non-negativity of balances (claim C2) -/

theorem walletsNonneg_add {s : LedgerState} {u : Nat} {a : ℤ} {ty d : String}
    {rid : Option Nat} {r : LedgerState × DeltaTransaction}
    (h : add_delta s u a ty d rid = .ok r) (hn : walletsNonneg s) :
    walletsNonneg r.1 := by
  obtain ⟨w, hw, hpos, -, -, -, hs⟩ := add_delta_ok_inv h
  rw [hs]
  intro p hp
  rcases mem_updKey hp with hmem | heq
  · exact hn p hmem
  · rw [heq]
    exact add_nonneg (hn _ (getWallet_mem hw)) hpos.le

theorem walletsNonneg_deduct {s : LedgerState} {u : Nat} {a : ℤ}
    {ty d : String} {rid : Option Nat} {r : LedgerState × DeltaTransaction}
    (h : deduct_delta s u a ty d rid = .ok r) (hn : walletsNonneg s) :
    walletsNonneg r.1 := by
  obtain ⟨w, hw, hpos, -, -, hbal, -, hs⟩ := deduct_delta_ok_inv h
  rw [hs]
  intro p hp
  rcases mem_updKey hp with hmem | heq
  · exact hn p hmem
  · rw [heq]
    exact sub_nonneg.mpr hbal

theorem walletsNonneg_transfer {s : LedgerState} {fu tu : Nat} {a : ℤ}
    {d : String} {r : LedgerState × DeltaTransaction × DeltaTransaction}
    (h : transfer_delta s fu tu a d = .ok r) (hn : walletsNonneg s) :
    walletsNonneg r.1 := by
  unfold transfer_delta at h
  split at h
  next => exact absurd h (by simp)
  next hne =>
    split at h
    next e he => exact absurd h (by simp)
    next s1 stx hded =>
      split at h
      next e he => exact absurd h (by simp)
      next s2 rtx hadd =>
        simp only [Except.ok.injEq] at h
        have h1 := walletsNonneg_deduct hded hn
        have h2 := walletsNonneg_add hadd h1
        rw [← h]
        intro p hp
        exact h2 p hp

theorem walletsNonneg_reverse {s : LedgerState} {i : Nat} {reason : String}
    {r : LedgerState × DeltaTransaction}
    (h : reverse_transaction s i reason = .ok r) (hn : walletsNonneg s) :
    walletsNonneg r.1 := by
  unfold reverse_transaction at h
  split at h
  next => exact absurd h (by simp)
  next t ht =>
    split at h
    next => exact absurd h (by simp)
    next =>
      split at h
      next => exact absurd h (by simp)
      next =>
        split at h
        next hcredit =>
          dsimp only at h
          split at h
          next e he => exact absurd h (by simp)
          next s1 rtx hres =>
            simp only [Except.ok.injEq] at h
            rw [← h]
            intro p hp
            exact walletsNonneg_deduct hres hn p hp
        next hcredit =>
          dsimp only at h
          split at h
          next e he => exact absurd h (by simp)
          next s1 rtx hres =>
            simp only [Except.ok.injEq] at h
            rw [← h]
            intro p hp
            exact walletsNonneg_add hres hn p hp

theorem walletsNonneg_award {s : LedgerState} {u : Nat} {name : String}
    {acc : Option ℤ} {rid : Option Nat}
    {r : LedgerState × Option DeltaTransaction}
    (h : award_for_activity s u name acc rid = .ok r) (hn : walletsNonneg s) :
    walletsNonneg r.1 := by
  unfold award_for_activity at h
  split at h
  next =>
    simp only [Except.ok.injEq] at h
    rw [← h]
    intro p hp
    exact hn p hp
  next rule hrule =>
    split at h
    next =>
      simp only [Except.ok.injEq] at h
      rw [← h]
      intro p hp
      exact hn p hp
    next =>
      cases hadd : add_delta s u rule.amount "earn" rule.description rid with
      | error e => rw [hadd] at h; exact absurd h (by simp [Except.map])
      | ok p =>
        rw [hadd] at h
        simp only [Except.map, Except.ok.injEq] at h
        rw [← h]
        intro q hq
        exact walletsNonneg_add hadd hn q hq

theorem walletsNonneg_purchase {s : LedgerState} {u pid : Nat} {q : Int}
    {r : LedgerState × DeltaPurchase}
    (h : purchase_product s u pid q = .ok r) (hn : walletsNonneg s) :
    walletsNonneg r.1 := by
  unfold purchase_product at h
  split at h
  next => exact absurd h (by simp)
  next product hprod =>
    split at h
    next => exact absurd h (by simp)
    next =>
      split at h
      next => exact absurd h (by simp)
      next =>
        split at h
        next hlim =>
          dsimp only at h
          split at h
          next e he => exact absurd h (by simp)
          next s1 tx hded =>
            simp only [Except.ok.injEq] at h
            rw [← h]
            intro p hp
            exact walletsNonneg_deduct hded hn p hp
        next hlim =>
          dsimp only at h
          split at h
          next e he => exact absurd h (by simp)
          next s1 tx hded =>
            simp only [Except.ok.injEq] at h
            rw [← h]
            intro p hp
            exact walletsNonneg_deduct hded hn p hp

theorem callResult_walletsNonneg {s : LedgerState} {c : ServiceCall}
    {s' : LedgerState} (h : callResult s c = .ok s') (hn : walletsNonneg s) :
    walletsNonneg s' := by
  cases c with
  | add u a ty d rid =>
    simp only [callResult] at h
    cases hop : add_delta s u a ty d rid with
    | error e => rw [hop] at h; exact absurd h (by simp [Except.map])
    | ok r =>
      rw [hop] at h
      simp only [Except.map, Except.ok.injEq] at h
      rw [← h]
      exact walletsNonneg_add hop hn
  | deduct u a ty d rid =>
    simp only [callResult] at h
    cases hop : deduct_delta s u a ty d rid with
    | error e => rw [hop] at h; exact absurd h (by simp [Except.map])
    | ok r =>
      rw [hop] at h
      simp only [Except.map, Except.ok.injEq] at h
      rw [← h]
      exact walletsNonneg_deduct hop hn
  | transfer fu tu a d =>
    simp only [callResult] at h
    cases hop : transfer_delta s fu tu a d with
    | error e => rw [hop] at h; exact absurd h (by simp [Except.map])
    | ok r =>
      rw [hop] at h
      simp only [Except.map, Except.ok.injEq] at h
      rw [← h]
      exact walletsNonneg_transfer hop hn
  | reverse i reason =>
    simp only [callResult] at h
    cases hop : reverse_transaction s i reason with
    | error e => rw [hop] at h; exact absurd h (by simp [Except.map])
    | ok r =>
      rw [hop] at h
      simp only [Except.map, Except.ok.injEq] at h
      rw [← h]
      exact walletsNonneg_reverse hop hn
  | award u name acc rid =>
    simp only [callResult] at h
    cases hop : award_for_activity s u name acc rid with
    | error e => rw [hop] at h; exact absurd h (by simp [Except.map])
    | ok r =>
      rw [hop] at h
      simp only [Except.map, Except.ok.injEq] at h
      rw [← h]
      exact walletsNonneg_award hop hn
  | purchase u pid q =>
    simp only [callResult] at h
    cases hop : purchase_product s u pid q with
    | error e => rw [hop] at h; exact absurd h (by simp [Except.map])
    | ok r =>
      rw [hop] at h
      simp only [Except.map, Except.ok.injEq] at h
      rw [← h]
      exact walletsNonneg_purchase hop hn

theorem runCall_walletsNonneg (s : LedgerState) (c : ServiceCall)
    (hn : walletsNonneg s) : walletsNonneg (runCall s c) := by
  cases hop : callResult s c with
  | error e => rw [runCall_eq_of_error hop]; exact hn
  | ok s' => rw [runCall_eq_of_ok hop]; exact callResult_walletsNonneg hop hn

/-- C2: starting from a state in which every wallet balance is
non-negative, after any finite sequence of `add_delta`, `deduct_delta`
and `transfer_delta` calls — each committing or raising a validation
error that rolls it back — every wallet balance is still non-negative. -/
theorem balance_never_negative (ops : List ServiceCall) (s : LedgerState)
    (hops : ∀ c ∈ ops, isBalanceCall c = true) (hn : walletsNonneg s) :
    walletsNonneg (ops.foldl runCall s) := by
  induction ops generalizing s with
  | nil => exact hn
  | cons c rest ih =>
    rw [List.foldl_cons]
    exact ih (runCall s c) (fun c' hc' => hops c' (List.mem_cons_of_mem _ hc'))
      (runCall_walletsNonneg s c hn)

/-- Witness for C2: a concrete two-wallet state run through an earn, a
failing over-deduct, a transfer and another failing deduct keeps every
balance non-negative. -/
theorem balance_never_negative_witness :
    (∀ c ∈ c2Ops, isBalanceCall c = true) ∧ walletsNonneg c2State ∧
    walletsNonneg (c2Ops.foldl runCall c2State) :=
  ⟨by decide, by decide,
    balance_never_negative c2Ops c2State (by decide) (by decide)⟩

/-! ### `callResult` unfolding equations -/

theorem callResult_add (s : LedgerState) (u : Nat) (a : ℤ) (ty d : String)
    (rid : Option Nat) :
    callResult s (ServiceCall.add u a ty d rid) =
      (add_delta s u a ty d rid).map Prod.fst := rfl

theorem callResult_deduct (s : LedgerState) (u : Nat) (a : ℤ) (ty d : String)
    (rid : Option Nat) :
    callResult s (ServiceCall.deduct u a ty d rid) =
      (deduct_delta s u a ty d rid).map Prod.fst := rfl

theorem callResult_transfer (s : LedgerState) (fu tu : Nat) (a : ℤ)
    (d : String) :
    callResult s (ServiceCall.transfer fu tu a d) =
      (transfer_delta s fu tu a d).map Prod.fst := rfl

theorem callResult_reverse (s : LedgerState) (i : Nat) (reason : String) :
    callResult s (ServiceCall.reverse i reason) =
      (reverse_transaction s i reason).map Prod.fst := rfl

theorem callResult_award (s : LedgerState) (u : Nat) (n : String)
    (acc : Option ℤ) (rid : Option Nat) :
    callResult s (ServiceCall.award u n acc rid) =
      (award_for_activity s u n acc rid).map Prod.fst := rfl

theorem callResult_purchase (s : LedgerState) (u pid : Nat) (q : Int) :
    callResult s (ServiceCall.purchase u pid q) =
      (purchase_product s u pid q).map Prod.fst := rfl

/-! ### Lifetime-total consistency (claim C9) -/

theorem walletConsistent_add {s : LedgerState} {u : Nat} {a : ℤ}
    {ty d : String} {rid : Option Nat} {r : LedgerState × DeltaTransaction}
    (h : add_delta s u a ty d rid = .ok r)
    (hc : ∀ p ∈ s.wallets, walletConsistent p.2) :
    ∀ p ∈ r.1.wallets, walletConsistent p.2 := by
  obtain ⟨w, hw, hpos, -, -, -, hs⟩ := add_delta_ok_inv h
  rw [hs]
  intro p hp
  rcases mem_updKey hp with hmem | heq
  · exact hc p hmem
  · rw [heq]
    have hcw := hc _ (getWallet_mem hw)
    show w.balance + a = w.total_earned + a - w.total_spent
    have : w.balance = w.total_earned - w.total_spent := hcw
    omega

theorem walletConsistent_deduct {s : LedgerState} {u : Nat} {a : ℤ}
    {ty d : String} {rid : Option Nat} {r : LedgerState × DeltaTransaction}
    (h : deduct_delta s u a ty d rid = .ok r)
    (hc : ∀ p ∈ s.wallets, walletConsistent p.2) :
    ∀ p ∈ r.1.wallets, walletConsistent p.2 := by
  obtain ⟨w, hw, hpos, -, -, -, -, hs⟩ := deduct_delta_ok_inv h
  rw [hs]
  intro p hp
  rcases mem_updKey hp with hmem | heq
  · exact hc p hmem
  · rw [heq]
    have hcw := hc _ (getWallet_mem hw)
    show w.balance - a = w.total_earned - (w.total_spent + a)
    have : w.balance = w.total_earned - w.total_spent := hcw
    omega

theorem walletConsistent_step {s : LedgerState} {c : ServiceCall}
    (hc : isAddOrDeduct c = true)
    (hw : ∀ p ∈ s.wallets, walletConsistent p.2) :
    ∀ p ∈ (runCall s c).wallets, walletConsistent p.2 := by
  cases c with
  | add u a ty d rid =>
    cases hop : add_delta s u a ty d rid with
    | error e =>
      rw [runCall_eq_of_error (by rw [callResult_add, hop]; rfl)]
      exact hw
    | ok r =>
      rw [runCall_eq_of_ok (c := ServiceCall.add u a ty d rid)
        (by rw [callResult_add, hop]; rfl)]
      exact walletConsistent_add hop hw
  | deduct u a ty d rid =>
    cases hop : deduct_delta s u a ty d rid with
    | error e =>
      rw [runCall_eq_of_error (by rw [callResult_deduct, hop]; rfl)]
      exact hw
    | ok r =>
      rw [runCall_eq_of_ok (c := ServiceCall.deduct u a ty d rid)
        (by rw [callResult_deduct, hop]; rfl)]
      exact walletConsistent_deduct hop hw
  | transfer fu tu a d => simp [isAddOrDeduct] at hc
  | reverse i reason => simp [isAddOrDeduct] at hc
  | award u n acc rid => simp [isAddOrDeduct] at hc
  | purchase u pid q => simp [isAddOrDeduct] at hc

theorem foldl_walletConsistent (ops : List ServiceCall) :
    ∀ s : LedgerState, (∀ c ∈ ops, isAddOrDeduct c = true) →
      (∀ p ∈ s.wallets, walletConsistent p.2) →
      ∀ p ∈ (ops.foldl runCall s).wallets, walletConsistent p.2 := by
  induction ops with
  | nil => intro s _ h; exact h
  | cons c rest ih =>
    intro s hops h
    rw [List.foldl_cons]
    exact ih (runCall s c) (fun c' hc' => hops c' (List.mem_cons_of_mem _ hc'))
      (walletConsistent_step (hops c (List.mem_cons_self _ _)) h)

/-- C9: a wallet created by `get_or_create_wallet` starts with balance,
`total_earned` and `total_spent` all zero, and starting from any state
whose wallets all satisfy `balance = total_earned - total_spent`, after
`get_or_create_wallet` and any sequence of (committing or rolled-back)
`add_delta`/`deduct_delta` calls, every wallet still satisfies
`balance = total_earned - total_spent`: `add_delta` raises balance and
`total_earned` by the same amount and `deduct_delta` lowers balance and
raises `total_spent` by the same amount. -/
theorem balance_eq_earned_minus_spent (ops : List ServiceCall)
    (s : LedgerState) (u : Nat)
    (hops : ∀ c ∈ ops, isAddOrDeduct c = true)
    (hcons : ∀ p ∈ s.wallets, walletConsistent p.2) :
    (defaultWallet.balance = 0 ∧ defaultWallet.total_earned = 0 ∧
      defaultWallet.total_spent = 0) ∧
    ∀ p ∈ (ops.foldl runCall (get_or_create_wallet s u).1).wallets,
      walletConsistent p.2 := by
  refine ⟨⟨rfl, rfl, rfl⟩, ?_⟩
  apply foldl_walletConsistent ops _ hops
  unfold get_or_create_wallet
  split
  · exact hcons
  · intro p hp
    rcases List.mem_append.mp hp with h1 | h2
    · exact hcons p h1
    · rw [List.mem_singleton.mp h2]
      rfl

/-- Witness for C9: user 7's wallet is created lazily at zero, then an
add of 5 and a deduct of 2 keep `balance = total_earned - total_spent`
for every wallet. -/
theorem balance_eq_earned_minus_spent_witness :
    ((defaultWallet.balance = 0 ∧ defaultWallet.total_earned = 0 ∧
      defaultWallet.total_spent = 0) ∧
    ∀ p ∈ (c9Ops.foldl runCall (get_or_create_wallet c2State 7).1).wallets,
      walletConsistent p.2) ∧
    (∀ c ∈ c9Ops, isAddOrDeduct c = true) :=
  ⟨balance_eq_earned_minus_spent c9Ops c2State 7 (by decide) (by decide),
   by decide⟩

/-! ### Immutability of created transactions (claim C4) -/

theorem coreEq_refl (t : DeltaTransaction) : coreEq t t :=
  ⟨rfl, rfl, rfl, rfl, rfl, rfl, rfl, rfl, rfl⟩

theorem coreEq_trans {t1 t2 t3 : DeltaTransaction} (h12 : coreEq t1 t2)
    (h23 : coreEq t2 t3) : coreEq t1 t3 := by
  obtain ⟨a1, a2, a3, a4, a5, a6, a7, a8, a9⟩ := h12
  obtain ⟨b1, b2, b3, b4, b5, b6, b7, b8, b9⟩ := h23
  exact ⟨b1.trans a1, b2.trans a2, b3.trans a3, b4.trans a4, b5.trans a5,
    b6.trans a6, b7.trans a7, b8.trans a8, b9.trans a9⟩

theorem coreEq_setReversalFlags (t : DeltaTransaction) (b : Bool)
    (rb : Option Nat) :
    coreEq t { t with is_reversed := b, reversed_by := rb } :=
  ⟨rfl, rfl, rfl, rfl, rfl, rfl, rfl, rfl, rfl⟩

theorem coreEq_setRelated (t : DeltaTransaction) (ru : Option Nat) :
    coreEq t { t with related_user := ru } :=
  ⟨rfl, rfl, rfl, rfl, rfl, rfl, rfl, rfl, rfl⟩

theorem txPreserved_refl (s : LedgerState) : txPreserved s s :=
  fun t ht => ⟨t, ht, coreEq_refl t⟩

theorem txPreserved_trans {s1 s2 s3 : LedgerState}
    (h12 : txPreserved s1 s2) (h23 : txPreserved s2 s3) :
    txPreserved s1 s3 := by
  intro t ht
  obtain ⟨t2, ht2, he2⟩ := h12 t ht
  obtain ⟨t3, ht3, he3⟩ := h23 t2 ht2
  exact ⟨t3, ht3, coreEq_trans he2 he3⟩

theorem txPreserved_of_tx_eq {s s' : LedgerState}
    (h : s'.transactions = s.transactions) : txPreserved s s' :=
  fun t ht => ⟨t, by rw [h]; exact ht, coreEq_refl t⟩

theorem txPreserved_append {s s' : LedgerState} (l : List DeltaTransaction)
    (h : s'.transactions = s.transactions ++ l) : txPreserved s s' :=
  fun t ht => ⟨t, by rw [h]; exact List.mem_append_left _ ht, coreEq_refl t⟩

theorem txPreserved_map_mem {s s' : LedgerState}
    (f : DeltaTransaction → DeltaTransaction)
    (h : s'.transactions = s.transactions.map f)
    (hf : ∀ t ∈ s.transactions, coreEq t (f t)) : txPreserved s s' :=
  fun t ht => ⟨f t, by rw [h]; exact List.mem_map_of_mem f ht, hf t ht⟩

theorem txPreserved_add {s : LedgerState} {u : Nat} {a : ℤ} {ty d : String}
    {rid : Option Nat} {r : LedgerState × DeltaTransaction}
    (h : add_delta s u a ty d rid = .ok r) : txPreserved s r.1 := by
  obtain ⟨w, -, -, -, -, -, hs⟩ := add_delta_ok_inv h
  exact txPreserved_append [r.2] (by rw [hs])

theorem txPreserved_deduct {s : LedgerState} {u : Nat} {a : ℤ}
    {ty d : String} {rid : Option Nat} {r : LedgerState × DeltaTransaction}
    (h : deduct_delta s u a ty d rid = .ok r) : txPreserved s r.1 := by
  obtain ⟨w, -, -, -, -, -, -, hs⟩ := deduct_delta_ok_inv h
  exact txPreserved_append [r.2] (by rw [hs])

theorem txPreserved_transfer {s : LedgerState} {fu tu : Nat} {a : ℤ}
    {d : String} {r : LedgerState × DeltaTransaction × DeltaTransaction}
    (h : transfer_delta s fu tu a d = .ok r) (hfresh : txIdsFresh s) :
    txPreserved s r.1 := by
  unfold transfer_delta at h
  split at h
  next => exact absurd h (by simp)
  next hne =>
    split at h
    next e he => exact absurd h (by simp)
    next s1 stx hded =>
      split at h
      next e he => exact absurd h (by simp)
      next s2 rtx hadd =>
        simp only [Except.ok.injEq] at h
        obtain ⟨w1, hw1, -, -, -, -, hstx, hs1⟩ := deduct_delta_ok_inv hded
        obtain ⟨w2, hw2, -, -, -, hrtx, hs2⟩ := add_delta_ok_inv hadd
        dsimp only at hstx hs1 hrtx hs2
        have hstxid : stx.id = s.nextTxId := by rw [hstx]
        have hs1next : s1.nextTxId = s.nextTxId + 1 := by rw [hs1]
        have hrtxid : rtx.id = s.nextTxId + 1 := by rw [hrtx, hs1next]
        refine txPreserved_trans
          (txPreserved_trans (txPreserved_deduct hded) (txPreserved_add hadd))
          ?_
        rw [← h]
        apply txPreserved_map_mem _ rfl
        intro t htmem
        have htmem1 : t ∈ s1.transactions ++ [rtx] := by
          rw [hs2] at htmem
          exact htmem
        rcases List.mem_append.mp htmem1 with hin1 | hrt
        · have htmem0 : t ∈ s.transactions ++ [stx] := by
            rw [hs1] at hin1
            exact hin1
          rcases List.mem_append.mp htmem0 with hin0 | hst
          · have hlt := hfresh t hin0
            have hne1 : ¬t.id = stx.id := by omega
            have hne2 : ¬t.id = rtx.id := by
              rw [hrtxid]
              omega
            rw [if_neg hne1, if_neg hne2]
            exact coreEq_refl t
          · rw [List.mem_singleton.mp hst, if_pos rfl]
            exact coreEq_setRelated stx (some tu)
        · rw [List.mem_singleton.mp hrt]
          have hne1 : ¬rtx.id = stx.id := by
            rw [hrtxid, hstxid]
            omega
          rw [if_neg hne1, if_pos rfl]
          exact coreEq_setRelated rtx (some fu)

theorem txPreserved_reverse {s : LedgerState} {i : Nat} {reason : String}
    {r : LedgerState × DeltaTransaction}
    (h : reverse_transaction s i reason = .ok r) : txPreserved s r.1 := by
  unfold reverse_transaction at h
  split at h
  next => exact absurd h (by simp)
  next t ht =>
    split at h
    next => exact absurd h (by simp)
    next =>
      split at h
      next => exact absurd h (by simp)
      next =>
        split at h
        next hcredit =>
          dsimp only at h
          split at h
          next e he => exact absurd h (by simp)
          next s1 rtx hres =>
            simp only [Except.ok.injEq] at h
            refine txPreserved_trans (txPreserved_deduct hres) ?_
            rw [← h]
            apply txPreserved_map_mem _ rfl
            intro t' ht'
            by_cases hid : t'.id = i
            · rw [if_pos hid]
              exact coreEq_setReversalFlags t' true (some rtx.id)
            · rw [if_neg hid]
              exact coreEq_refl t'
        next hcredit =>
          dsimp only at h
          split at h
          next e he => exact absurd h (by simp)
          next s1 rtx hres =>
            simp only [Except.ok.injEq] at h
            refine txPreserved_trans (txPreserved_add hres) ?_
            rw [← h]
            apply txPreserved_map_mem _ rfl
            intro t' ht'
            by_cases hid : t'.id = i
            · rw [if_pos hid]
              exact coreEq_setReversalFlags t' true (some rtx.id)
            · rw [if_neg hid]
              exact coreEq_refl t'

theorem txPreserved_award {s : LedgerState} {u : Nat} {name : String}
    {acc : Option ℤ} {rid : Option Nat}
    {r : LedgerState × Option DeltaTransaction}
    (h : award_for_activity s u name acc rid = .ok r) : txPreserved s r.1 := by
  unfold award_for_activity at h
  split at h
  next =>
    simp only [Except.ok.injEq] at h
    rw [← h]
    exact txPreserved_refl s
  next rule hrule =>
    split at h
    next =>
      simp only [Except.ok.injEq] at h
      rw [← h]
      exact txPreserved_refl s
    next =>
      cases hadd : add_delta s u rule.amount "earn" rule.description rid with
      | error e => rw [hadd] at h; exact absurd h (by simp [Except.map])
      | ok p =>
        rw [hadd] at h
        simp only [Except.map, Except.ok.injEq] at h
        rw [← h]
        exact txPreserved_add hadd

theorem txPreserved_purchase {s : LedgerState} {u pid : Nat} {q : Int}
    {r : LedgerState × DeltaPurchase}
    (h : purchase_product s u pid q = .ok r) : txPreserved s r.1 := by
  unfold purchase_product at h
  split at h
  next => exact absurd h (by simp)
  next product hprod =>
    split at h
    next => exact absurd h (by simp)
    next =>
      split at h
      next => exact absurd h (by simp)
      next =>
        split at h
        next hlim =>
          dsimp only at h
          split at h
          next e he => exact absurd h (by simp)
          next s1 tx hded =>
            simp only [Except.ok.injEq] at h
            refine txPreserved_trans (txPreserved_deduct hded) ?_
            rw [← h]
            exact txPreserved_of_tx_eq rfl
        next hlim =>
          dsimp only at h
          split at h
          next e he => exact absurd h (by simp)
          next s1 tx hded =>
            simp only [Except.ok.injEq] at h
            refine txPreserved_trans (txPreserved_deduct hded) ?_
            rw [← h]
            exact txPreserved_of_tx_eq rfl

theorem txPreserved_runCall (s : LedgerState) (c : ServiceCall)
    (hfresh : txIdsFresh s) : txPreserved s (runCall s c) := by
  cases hop : callResult s c with
  | error e =>
    rw [runCall_eq_of_error hop]
    exact txPreserved_refl s
  | ok s' =>
    rw [runCall_eq_of_ok hop]
    cases c with
    | add u a ty d rid =>
      rw [callResult_add] at hop
      cases hcall : add_delta s u a ty d rid with
      | error e => rw [hcall] at hop; exact absurd hop (by simp [Except.map])
      | ok r =>
        rw [hcall] at hop
        simp only [Except.map, Except.ok.injEq] at hop
        rw [← hop]
        exact txPreserved_add hcall
    | deduct u a ty d rid =>
      rw [callResult_deduct] at hop
      cases hcall : deduct_delta s u a ty d rid with
      | error e => rw [hcall] at hop; exact absurd hop (by simp [Except.map])
      | ok r =>
        rw [hcall] at hop
        simp only [Except.map, Except.ok.injEq] at hop
        rw [← hop]
        exact txPreserved_deduct hcall
    | transfer fu tu a d =>
      rw [callResult_transfer] at hop
      cases hcall : transfer_delta s fu tu a d with
      | error e => rw [hcall] at hop; exact absurd hop (by simp [Except.map])
      | ok r =>
        rw [hcall] at hop
        simp only [Except.map, Except.ok.injEq] at hop
        rw [← hop]
        exact txPreserved_transfer hcall hfresh
    | reverse i reason =>
      rw [callResult_reverse] at hop
      cases hcall : reverse_transaction s i reason with
      | error e => rw [hcall] at hop; exact absurd hop (by simp [Except.map])
      | ok r =>
        rw [hcall] at hop
        simp only [Except.map, Except.ok.injEq] at hop
        rw [← hop]
        exact txPreserved_reverse hcall
    | award u n acc rid =>
      rw [callResult_award] at hop
      cases hcall : award_for_activity s u n acc rid with
      | error e => rw [hcall] at hop; exact absurd hop (by simp [Except.map])
      | ok r =>
        rw [hcall] at hop
        simp only [Except.map, Except.ok.injEq] at hop
        rw [← hop]
        exact txPreserved_award hcall
    | purchase u pid q =>
      rw [callResult_purchase] at hop
      cases hcall : purchase_product s u pid q with
      | error e => rw [hcall] at hop; exact absurd hop (by simp [Except.map])
      | ok r =>
        rw [hcall] at hop
        simp only [Except.map, Except.ok.injEq] at hop
        rw [← hop]
        exact txPreserved_purchase hcall

/-- C4: every transaction created by `add_delta` has positive amount and
`balance_after = balance_before + amount`; every transaction created by
`deduct_delta` has positive amount and
`balance_after = balance_before - amount`; and no service call mutates a
stored transaction's core fields — only `is_reversed`/`reversed_by` (set
by `reverse_transaction`) and `related_user` (set by `transfer_delta`)
can change, `txIdsFresh` standing for the uniqueness of the UUID primary
keys. -/
theorem tx_record_invariants :
    (∀ (s : LedgerState) (u : Nat) (a : ℤ) (ty d : String) (rid : Option Nat)
       (r : LedgerState × DeltaTransaction), add_delta s u a ty d rid = .ok r →
       0 < r.2.amount ∧ r.2.balance_after = r.2.balance_before + r.2.amount) ∧
    (∀ (s : LedgerState) (u : Nat) (a : ℤ) (ty d : String) (rid : Option Nat)
       (r : LedgerState × DeltaTransaction),
       deduct_delta s u a ty d rid = .ok r →
       0 < r.2.amount ∧ r.2.balance_after = r.2.balance_before - r.2.amount) ∧
    (∀ (s : LedgerState) (c : ServiceCall), txIdsFresh s →
       txPreserved s (runCall s c)) := by
  refine ⟨?_, ?_, ?_⟩
  · intro s u a ty d rid r h
    obtain ⟨w, -, hpos, -, -, htx, -⟩ := add_delta_ok_inv h
    rw [htx]
    exact ⟨hpos, rfl⟩
  · intro s u a ty d rid r h
    obtain ⟨w, -, hpos, -, -, -, htx, -⟩ := deduct_delta_ok_inv h
    rw [htx]
    exact ⟨hpos, rfl⟩
  · intro s c hfresh
    exact txPreserved_runCall s c hfresh

/-- Witness for C4: a concrete add (100 → 105) and deduct (100 → 95) on
the 100-balance wallet, plus preservation of the stored history of
`c1State` across a reversal call. -/
theorem tx_record_invariants_witness :
    (0 < c4AddRes.2.amount ∧
      c4AddRes.2.balance_after = c4AddRes.2.balance_before +
        c4AddRes.2.amount) ∧
    (0 < c4DeductRes.2.amount ∧
      c4DeductRes.2.balance_after = c4DeductRes.2.balance_before -
        c4DeductRes.2.amount) ∧
    txPreserved c1State (runCall c1State (ServiceCall.reverse 0 "undo")) :=
  ⟨tx_record_invariants.1 c3State 1 5 "earn" "practice award" none c4AddRes
      rfl,
   tx_record_invariants.2.1 c3State 1 5 "spend" "store" none c4DeductRes rfl,
   tx_record_invariants.2.2 c1State (ServiceCall.reverse 0 "undo")
      (by decide)⟩

/-! ### Claim C6 -/

/-- C6: a service call that raises a validation-style error commits
nothing: the state after the call is exactly the previously committed
one — no balance or counter changes, no transaction or purchase record
appears.  This is the embedding of the `@db_transaction.atomic`
rollback. -/
theorem failed_call_rolls_back (s : LedgerState) (c : ServiceCall)
    (e : DeltaError) (h : callResult s c = .error e) : runCall s c = s :=
  runCall_eq_of_error h

/-- Witness for C6: a transfer whose deduct step succeeds (sender
funded) but whose add step fails (recipient frozen) raises the wrapped
validation error and leaves the whole state — including the sender's
already-deducted balance — unchanged. -/
theorem failed_call_rolls_back_witness :
    callResult c6State (ServiceCall.transfer 1 2 5 "gift") =
      .error (.validation "Transfer failed: Wallet is frozen") ∧
    runCall c6State (ServiceCall.transfer 1 2 5 "gift") = c6State :=
  ⟨rfl,
   failed_call_rolls_back c6State (ServiceCall.transfer 1 2 5 "gift")
     (.validation "Transfer failed: Wallet is frozen") rfl⟩

/-! ### Claim C5 -/

/-- C5: self-transfer is rejected with a validation error; a successful
`transfer_delta` performs exactly one deduction from the sender and one
addition to the recipient inside one atomic unit (exactly two new
transaction records; sender balance down by the amount, recipient
balance up by it) and cross-links the two records: the sender
transaction's `related_user` is the recipient and vice versa. -/
theorem transfer_delta_spec (s : LedgerState) (fu tu : Nat) (a : ℤ)
    (d : String) :
    (transfer_delta s fu fu a d =
      .error (.validation "Cannot transfer to yourself")) ∧
    (∀ s' stx rtx, transfer_delta s fu tu a d = .ok (s', stx, rtx) →
      ∃ wf wt, getWallet s fu = some wf ∧ getWallet s tu = some wt ∧
        (getWallet s' fu).map DeltaWallet.balance = some (wf.balance - a) ∧
        (getWallet s' tu).map DeltaWallet.balance = some (wt.balance + a) ∧
        stx.related_user = some tu ∧ rtx.related_user = some fu ∧
        stx.walletUser = fu ∧ rtx.walletUser = tu ∧
        stx.amount = a ∧ rtx.amount = a ∧
        stx.balance_after = stx.balance_before - a ∧
        rtx.balance_after = rtx.balance_before + a ∧
        s'.transactions.length = s.transactions.length + 2) := by
  constructor
  · simp [transfer_delta]
  · intro s' stx rtx h
    unfold transfer_delta at h
    split at h
    next heq => exact absurd h (by simp)
    next hne =>
      split at h
      next e he => exact absurd h (by simp)
      next s1 stx0 hded =>
        split at h
        next e he => exact absurd h (by simp)
        next s2 rtx0 hadd =>
          simp only [Except.ok.injEq, Prod.mk.injEq] at h
          obtain ⟨hs', hstx, hrtx⟩ := h
          obtain ⟨w1, hw1, -, -, -, -, hstx0, hs1⟩ := deduct_delta_ok_inv hded
          obtain ⟨w2, hw2, -, -, -, hrtx0, hs2⟩ := add_delta_ok_inv hadd
          dsimp only at hstx0 hs1 hrtx0 hs2
          have hwt : getWallet s tu = some w2 := by
            rw [hs1] at hw2
            have : lookupKey (updKey s.wallets fu
                { w1 with balance := w1.balance - a,
                          total_spent := w1.total_spent + a }) tu = some w2 :=
              hw2
            rw [lookupKey_updKey_ne _ _ (Ne.symm hne)] at this
            exact this
          refine ⟨w1, w2, hw1, hwt, ?_, ?_, ?_, ?_, ?_, ?_, ?_, ?_, ?_, ?_, ?_⟩
          · rw [← hs']
            show (lookupKey s2.wallets fu).map DeltaWallet.balance = _
            rw [hs2]
            show (lookupKey (updKey s1.wallets tu _) fu).map
              DeltaWallet.balance = _
            rw [lookupKey_updKey_ne _ _ hne, hs1]
            show (lookupKey (updKey s.wallets fu _) fu).map
              DeltaWallet.balance = _
            rw [lookupKey_updKey_self _ hw1]
            rfl
          · rw [← hs']
            show (lookupKey s2.wallets tu).map DeltaWallet.balance = _
            rw [hs2]
            show (lookupKey (updKey s1.wallets tu _) tu).map
              DeltaWallet.balance = _
            rw [lookupKey_updKey_self _ hw2]
            rfl
          · rw [← hstx]
          · rw [← hrtx]
          · rw [← hstx]
            show stx0.walletUser = fu
            rw [hstx0]
          · rw [← hrtx]
            show rtx0.walletUser = tu
            rw [hrtx0]
          · rw [← hstx]
            show stx0.amount = a
            rw [hstx0]
          · rw [← hrtx]
            show rtx0.amount = a
            rw [hrtx0]
          · rw [← hstx]
            show stx0.balance_after = stx0.balance_before - a
            rw [hstx0]
          · rw [← hrtx]
            show rtx0.balance_after = rtx0.balance_before + a
            rw [hrtx0]
          · rw [← hs']
            show (s2.transactions.map _).length = _
            rw [List.length_map, hs2]
            show (s1.transactions ++ [rtx0]).length = _
            rw [List.length_append, hs1]
            show (s.transactions ++ [stx0]).length + _ = _
            rw [List.length_append]
            simp

/-- Witness for C5: transferring 4 from user 1 (balance 10) to user 2
(balance 0) in `c2State` — the self-transfer is rejected and the real
transfer moves exactly 4 with cross-linked records. -/
theorem transfer_delta_spec_witness :
    transfer_delta c2State 1 1 4 "gift" =
      .error (DeltaError.validation "Cannot transfer to yourself") ∧
    (∃ wf wt, getWallet c2State 1 = some wf ∧ getWallet c2State 2 = some wt ∧
      (getWallet c5Res.1 1).map DeltaWallet.balance = some (wf.balance - 4) ∧
      (getWallet c5Res.1 2).map DeltaWallet.balance = some (wt.balance + 4) ∧
      c5Res.2.1.related_user = some 2 ∧ c5Res.2.2.related_user = some 1 ∧
      c5Res.2.1.walletUser = 1 ∧ c5Res.2.2.walletUser = 2 ∧
      c5Res.2.1.amount = 4 ∧ c5Res.2.2.amount = 4 ∧
      c5Res.2.1.balance_after = c5Res.2.1.balance_before - 4 ∧
      c5Res.2.2.balance_after = c5Res.2.2.balance_before + 4 ∧
      c5Res.1.transactions.length = c2State.transactions.length + 2) :=
  ⟨(transfer_delta_spec c2State 1 1 4 "gift").1,
   (transfer_delta_spec c2State 1 2 4 "gift").2 c5Res.1 c5Res.2.1 c5Res.2.2
     rfl⟩

/-! ### Claim C7 -/

/-- C7: `award_for_activity` returns `None` and leaves the state
untouched when no rule with the requested name is active, and likewise
when the matched rule's conditions carry a `min_accuracy` bound and the
supplied accuracy (default 0) is below it; otherwise it awards exactly
`rule.amount` through `add_delta` (type `'earn'`, the rule's
description) and returns that call's transaction. -/
theorem award_for_activity_spec (s : LedgerState) (u : Nat) (name : String)
    (acc : Option ℤ) (rid : Option Nat) :
    ((∀ r ∈ s.rules, r.name ≠ name ∨ r.is_active = false) →
      award_for_activity s u name acc rid = .ok (s, none)) ∧
    (∀ rule, findRule s name = some rule →
      (∀ m, lookupKey rule.conditions "min_accuracy" = some m →
        acc.getD 0 < m →
        award_for_activity s u name acc rid = .ok (s, none)) ∧
      (minAccuracyBlocks rule.conditions acc = false →
        award_for_activity s u name acc rid =
          (add_delta s u rule.amount "earn" rule.description rid).map
            (fun p => (p.1, some p.2)))) := by
  constructor
  · intro hnone
    have hfr : findRule s name = none := by
      unfold findRule
      rw [List.find?_eq_none]
      intro r hr
      rcases hnone r hr with h1 | h2
      · simp [h1]
      · simp [h2]
    simp [award_for_activity, hfr]
  · intro rule hfind
    constructor
    · intro m hm hlt
      have hblock : minAccuracyBlocks rule.conditions acc = true := by
        have hne : rule.conditions.isEmpty = false := by
          cases hc : rule.conditions with
          | nil => rw [hc] at hm; simp [lookupKey] at hm
          | cons p l => rfl
        simp [minAccuracyBlocks, hne, hm, hlt]
      simp [award_for_activity, hfind, hblock]
    · intro hblock
      simp [award_for_activity, hfind, hblock]

/-- Witness for C7: on `c7State` (one active rule "practice", amount 5,
minimum accuracy 80) — a missing rule name is a silent no-op, accuracy
50 is a silent no-op, and accuracy 90 awards 5 through `add_delta`. -/
theorem award_for_activity_spec_witness :
    award_for_activity c7State 1 "nope" (some 90) none =
      .ok (c7State, none) ∧
    award_for_activity c7State 1 "practice" (some 50) none =
      .ok (c7State, none) ∧
    award_for_activity c7State 1 "practice" (some 90) none =
      (add_delta c7State 1 c7Rule.amount "earn" c7Rule.description none).map
        (fun p => (p.1, some p.2)) :=
  ⟨(award_for_activity_spec c7State 1 "nope" (some 90) none).1 (by decide),
   ((award_for_activity_spec c7State 1 "practice" (some 50) none).2 c7Rule
      rfl).1 80 rfl (by decide),
   ((award_for_activity_spec c7State 1 "practice" (some 90) none).2 c7Rule
      rfl).2 (by decide)⟩

/-! ### Claim C8 -/

/-- C8: `purchase_product` rejects an unavailable product, and a limited
product whose stock is missing or below the requested quantity; on
success it deducts `price * quantity` from the buyer's wallet via
`deduct_delta`, records a purchase linked to that transaction, and for a
limited product decrements `quantity_available` by the quantity, turning
`is_available` off exactly when the remainder is zero or below. -/
theorem purchase_product_spec (s : LedgerState) (u pid : Nat) (q : Int)
    (p : DeltaProduct) (hp : lookupKey s.products pid = some p)
    (hq : 1 ≤ q) :
    (p.is_available = false →
      purchase_product s u pid q =
        .error (.validation "Product is not available")) ∧
    (p.is_available = true → p.is_limited = true →
      (p.quantity_available = none ∨
        ∃ n, p.quantity_available = some n ∧ n < q) →
      purchase_product s u pid q =
        .error (.validation "Insufficient product quantity available")) ∧
    (∀ s' pur, purchase_product s u pid q = .ok (s', pur) →
      ∃ w, getWallet s u = some w ∧
        (getWallet s' u).map DeltaWallet.balance =
          some (w.balance - p.price * q) ∧
        pur.total_price = p.price * q ∧ pur.user = u ∧ pur.productId = pid ∧
        pur ∈ s'.purchases ∧
        (∃ tx ∈ s'.transactions, tx.id = pur.transactionId ∧
          tx.amount = p.price * q ∧ tx.walletUser = u ∧
          tx.transaction_type = "spend") ∧
        (p.is_limited = true → ∃ n p', p.quantity_available = some n ∧
          lookupKey s'.products pid = some p' ∧
          p'.quantity_available = some (n - q) ∧
          (p'.is_available = false ↔ n - q ≤ 0))) := by
  refine ⟨?_, ?_, ?_⟩
  · intro hna
    simp [purchase_product, hp, hna]
  · intro hav hlim hbad
    have hcond : (p.is_limited &&
        (match p.quantity_available with
         | none => true
         | some q0 => q0 = 0 || q0 < q)) = true := by
      rw [hlim]
      rcases hbad with hn | ⟨n, hn, hlt⟩
      · rw [hn]
        rfl
      · rw [hn]
        simp [hlt]
    simp [purchase_product, hp, hav, hcond]
  · intro s' pur h
    unfold purchase_product at h
    rw [hp] at h
    split at h
    next hno => exact absurd h (by simp)
    next product hsome =>
      obtain rfl : p = product := Option.some.inj hsome
      split at h
      next hna => exact absurd h (by simp)
      next hna =>
        split at h
        next hquant => exact absurd h (by simp)
        next hquant =>
          have hav : p.is_available = true := bool_eq_true_of_not_false hna
          split at h
          next hlim =>
            dsimp only at h
            split at h
            next e he => exact absurd h (by simp)
            next s1 tx hded =>
              simp only [Except.ok.injEq, Prod.mk.injEq] at h
              obtain ⟨hs', hpur⟩ := h
              obtain ⟨w, hw, -, -, -, -, htx, hs1⟩ := deduct_delta_ok_inv hded
              dsimp only at htx hs1
              obtain ⟨n, hqa⟩ : ∃ n, p.quantity_available = some n := by
                cases hqa : p.quantity_available with
                | none =>
                  rw [hlim, hqa] at hquant
                  exact absurd rfl hquant
                | some n => exact ⟨n, rfl⟩
              refine ⟨w, hw, ?_, ?_, ?_, ?_, ?_, ?_, ?_⟩
              · rw [← hs']
                show (lookupKey s1.wallets u).map DeltaWallet.balance = _
                rw [hs1]
                show (lookupKey (updKey s.wallets u _) u).map
                  DeltaWallet.balance = _
                rw [lookupKey_updKey_self _ hw]
                rfl
              · rw [← hpur]
              · rw [← hpur]
              · rw [← hpur]
              · rw [← hpur, ← hs']
                exact List.mem_append_right _ (List.mem_singleton_self _)
              · refine ⟨tx, ?_, ?_, ?_, ?_, ?_⟩
                · rw [← hs']
                  show tx ∈ s1.transactions
                  rw [hs1]
                  show tx ∈ s.transactions ++ [tx]
                  exact List.mem_append_right _ (List.mem_singleton_self tx)
                · rw [← hpur]
                · rw [htx]
                · rw [htx]
                · rw [htx]
              · intro hlim2
                refine ⟨n, ⟨p.name, p.price,
                    (if p.quantity_available.getD 0 - q ≤ 0 then false
                      else p.is_available),
                    p.is_limited, some (p.quantity_available.getD 0 - q)⟩,
                  hqa, ?_, ?_, ?_⟩
                · rw [← hs']
                  show lookupKey (updKey s1.products pid _) pid = _
                  have hp1 : lookupKey s1.products pid = some p := by
                    rw [hs1]
                    exact hp
                  exact lookupKey_updKey_self _ hp1
                · show (some (p.quantity_available.getD 0 - q) :
                    Option Int) = some (n - q)
                  rw [hqa]
                  rfl
                · show (if p.quantity_available.getD 0 - q ≤ 0 then false
                    else p.is_available) = false ↔ n - q ≤ 0
                  rw [hqa]
                  show (if n - q ≤ 0 then false else p.is_available) =
                    false ↔ n - q ≤ 0
                  by_cases hle : n - q ≤ 0
                  · rw [if_pos hle]
                    simp [hle]
                  · rw [if_neg hle, hav]
                    simp [hle]
          next hlim =>
            dsimp only at h
            split at h
            next e he => exact absurd h (by simp)
            next s1 tx hded =>
              simp only [Except.ok.injEq, Prod.mk.injEq] at h
              obtain ⟨hs', hpur⟩ := h
              obtain ⟨w, hw, -, -, -, -, htx, hs1⟩ := deduct_delta_ok_inv hded
              dsimp only at htx hs1
              refine ⟨w, hw, ?_, ?_, ?_, ?_, ?_, ?_, ?_⟩
              · rw [← hs']
                show (lookupKey s1.wallets u).map DeltaWallet.balance = _
                rw [hs1]
                show (lookupKey (updKey s.wallets u _) u).map
                  DeltaWallet.balance = _
                rw [lookupKey_updKey_self _ hw]
                rfl
              · rw [← hpur]
              · rw [← hpur]
              · rw [← hpur]
              · rw [← hpur, ← hs']
                exact List.mem_append_right _ (List.mem_singleton_self _)
              · refine ⟨tx, ?_, ?_, ?_, ?_, ?_⟩
                · rw [← hs']
                  show tx ∈ s1.transactions
                  rw [hs1]
                  show tx ∈ s.transactions ++ [tx]
                  exact List.mem_append_right _ (List.mem_singleton_self tx)
                · rw [← hpur]
                · rw [htx]
                · rw [htx]
                · rw [htx]
              · intro hlim2
                exact absurd hlim2 hlim

/-- Witness for C8: on `c8State`, the unavailable product 11 is
rejected, asking 5 of the limited product 10 (stock 2) is rejected, and
buying 2 of product 10 deducts 6 (price 3 × 2) from the 100-balance
wallet, records the linked purchase, and exhausts the stock, flipping
availability off. -/
theorem purchase_product_spec_witness :
    purchase_product c8State 1 11 1 =
      .error (DeltaError.validation "Product is not available") ∧
    purchase_product c8State 1 10 5 =
      .error (DeltaError.validation
        "Insufficient product quantity available") ∧
    (∃ w, getWallet c8State 1 = some w ∧
      (getWallet c8Res.1 1).map DeltaWallet.balance =
        some (w.balance - c8Product.price * 2) ∧
      c8Res.2.total_price = c8Product.price * 2 ∧ c8Res.2.user = 1 ∧
      c8Res.2.productId = 10 ∧ c8Res.2 ∈ c8Res.1.purchases ∧
      (∃ tx ∈ c8Res.1.transactions, tx.id = c8Res.2.transactionId ∧
        tx.amount = c8Product.price * 2 ∧ tx.walletUser = 1 ∧
        tx.transaction_type = "spend") ∧
      (c8Product.is_limited = true → ∃ n p',
        c8Product.quantity_available = some n ∧
        lookupKey c8Res.1.products 10 = some p' ∧
        p'.quantity_available = some (n - 2) ∧
        (p'.is_available = false ↔ n - 2 ≤ 0))) :=
  ⟨(purchase_product_spec c8State 1 11 1
      { name := "hat", price := 4, is_available := false,
        is_limited := false, quantity_available := none } rfl (by decide)).1
      rfl,
   (purchase_product_spec c8State 1 10 5 c8Product rfl (by decide)).2.1 rfl
      rfl (Or.inr ⟨2, rfl, by decide⟩),
   (purchase_product_spec c8State 1 10 2 c8Product rfl (by decide)).2.2
      c8Res.1 c8Res.2 rfl⟩

/-! ### Claim C1 -/

/-- Counterexample to C1 as stated: in `c1State`, transaction 0 is a
completed, unreversed sender-side `'transfer'` (it deducted 30, balance
100 → 70), yet `reverse_transaction` — which classifies `'transfer'` as
a credit type and undoes it by deducting — leaves the wallet at 40, not
at `balance_before = 100`. -/
theorem reverse_transaction_restores_counterexample :
    (findTx c1State 0).map (fun t =>
      (t.transaction_type, t.status, t.is_reversed, t.balance_before,
        t.balance_after)) =
      some ("transfer", "completed", false, (100 : ℤ), (70 : ℤ)) ∧
    (getWallet c1State 1).map DeltaWallet.balance = some (70 : ℤ) ∧
    (getWallet (runCall c1State (ServiceCall.reverse 0 "undo")) 1).map
      DeltaWallet.balance = some (40 : ℤ) ∧
    (40 : ℤ) ≠ 100 := by
  refine ⟨rfl, rfl, ?_, by decide⟩
  decide

/-- C1 amended: `reverse_transaction` on a completed, unreversed
transaction restores the wallet to `balance_before` provided the
transaction's recorded direction agrees with the reversal category of
its type — types in `creditTypes` (earn, bonus, admin_add, transfer)
must have been credits (`balance_after = balance_before + amount`) and
all other types debits (`balance_after = balance_before - amount`) —
and the wallet still stands at `balance_after`, is active and unfrozen,
with `balance_before ≥ 0` and a positive amount.  A deduct-created
`'transfer'` (sender side) violates the proviso and is driven further
down instead (see the counterexample). -/
theorem reverse_transaction_restores_balance (s : LedgerState)
    (t : DeltaTransaction) (w : DeltaWallet) (reason : String)
    (hfind : findTx s t.id = some t)
    (hw : getWallet s t.walletUser = some w)
    (hbal : w.balance = t.balance_after)
    (hact : w.is_active = true) (hfro : w.is_frozen = false)
    (hamt : 0 < t.amount) (hbb : 0 ≤ t.balance_before)
    (hst : t.status = "completed") (hrev : t.is_reversed = false)
    (hdir : (t.transaction_type ∈ creditTypes →
              t.balance_after = t.balance_before + t.amount) ∧
            (t.transaction_type ∉ creditTypes →
              t.balance_after = t.balance_before - t.amount)) :
    ∃ s' rtx, reverse_transaction s t.id reason = .ok (s', rtx) ∧
      (getWallet s' t.walletUser).map DeltaWallet.balance =
        some t.balance_before := by
  unfold reverse_transaction
  simp only [hfind]
  rw [hrev, hst]
  rw [if_neg (by simp)]
  rw [if_neg (by simp)]
  by_cases hc : t.transaction_type ∈ creditTypes
  · rw [if_pos hc]
    have hded := deduct_delta_eq_ok s t.walletUser t.amount "reversal"
      ("Reversal: " ++ t.description ++ ". Reason: " ++ reason) (some t.id)
      w hw hamt hact hfro (by rw [hbal, hdir.1 hc]; omega)
    rw [hded]
    refine ⟨_, _, rfl, ?_⟩
    show (lookupKey (updKey s.wallets t.walletUser _) t.walletUser).map
      DeltaWallet.balance = _
    rw [lookupKey_updKey_self _ hw]
    show some (w.balance - t.amount) = some t.balance_before
    rw [hbal, hdir.1 hc]
    congr 1
    omega
  · rw [if_neg hc]
    have hadd := add_delta_eq_ok s t.walletUser t.amount "reversal"
      ("Reversal: " ++ t.description ++ ". Reason: " ++ reason) (some t.id)
      w hw hamt hact hfro
    rw [hadd]
    refine ⟨_, _, rfl, ?_⟩
    show (lookupKey (updKey s.wallets t.walletUser _) t.walletUser).map
      DeltaWallet.balance = _
    rw [lookupKey_updKey_self _ hw]
    show some (w.balance + t.amount) = some t.balance_before
    rw [hbal, hdir.2 hc]
    congr 1
    omega

/-- Witness for the amended C1: reversing the earn of 20 recorded in
`c1EarnState` (balance 30 → 50) deducts 20 and restores the wallet to
30. -/
theorem reverse_transaction_restores_balance_witness :
    ∃ s' rtx, reverse_transaction c1EarnState c1EarnTx.id "undo" =
      .ok (s', rtx) ∧
      (getWallet s' c1EarnTx.walletUser).map DeltaWallet.balance =
        some c1EarnTx.balance_before :=
  reverse_transaction_restores_balance c1EarnState c1EarnTx
    { balance := 50, total_earned := 50, total_spent := 0,
      is_active := true, is_frozen := false } "undo"
    rfl rfl rfl rfl rfl (by decide) (by decide) rfl rfl
    ⟨fun _ => rfl, fun hnot => absurd (by decide) hnot⟩

end DeltaLedger
